import Mathlib

/-!
# Verification of the bestdori-live2d-downloader build pipeline

A shallow embedding, in Lean 4, of the download/build pipeline of
pkg/downloader/downloader.go, together with theorems about the claims of the
natural-language specification.  Pure Go functions become Lean functions;
filesystem and network effects are resolved by explicit environment records
(which outcome each effectful call produced); Go errors become an inductive
error type; Go maps become association lists with distinct keys.
-/

namespace BestdoriDL

/-! ## Go string and path primitives

The Go code uses strings.HasSuffix, strings.HasPrefix, strings.Contains,
strings.Split(s, ".")[0], filepath.Base, filepath.Join, filepath.Rel and
filepath.ToSlash.  Paths are modelled as Lean strings over their character
lists; filepath.ToSlash is the identity on the slash-separated paths used
throughout and is therefore omitted.
-/

/-- Models Go strings.HasSuffix s suf. -/
def goEndsWith (s suf : String) : Bool :=
  suf.data.isSuffixOf s.data

/-- Models Go strings.HasPrefix s pre. -/
def goStartsWith (s pre : String) : Bool :=
  pre.data.isPrefixOf s.data

/-- Models Go strings.Contains s sub. -/
def goContains (s sub : String) : Bool :=
  decide (sub.data <:+: s.data)

/-- Models Go strings.Split(s, ".")[0]: the prefix of s before its first dot
(s itself when s has no dot). -/
def splitDotHead (s : String) : String :=
  String.mk (s.data.takeWhile (fun c => c ≠ '.'))

/-- Models Go filepath.Base on slash-separated paths: the last element of the
path, after trailing slashes are removed; "." for the empty path, "/" for an
all-slash path. -/
def filepathBase (path : String) : String :=
  if path.data.isEmpty then "." else
  let trimmed := (path.data.reverse.dropWhile (fun c => c = '/')).reverse
  if trimmed.isEmpty then "/" else
  String.mk ((trimmed.reverse.takeWhile (fun c => c ≠ '/')).reverse)

/-- Models Go filepath.Join dir elem for the already-clean relative segments
the code joins: dir ++ "/" ++ elem. -/
def filepathJoin (dir elem : String) : String :=
  dir ++ "/" ++ elem

/-- Models Go filepath.Rel basepath targpath for the only case the code
exercises: targpath strictly below basepath.  Outside that case the model
reports failure, as filepath.Rel can. -/
def filepathRel (basepath targpath : String) : Option String :=
  if (basepath ++ "/").data.isPrefixOf targpath.data then
    some (String.mk (targpath.data.drop (basepath.data.length + 1)))
  else none

/-! ## Data model (pkg/model/types.go) -/

/-- BundleFile: a remote asset reference. -/
structure BundleFile where
  bundleName : String
  fileName : String
deriving DecidableEq

/-- MotionFile: one motion entry of the output manifest. -/
structure MotionFile where
  file : String
deriving DecidableEq

/-- ExpressionFile: one expression entry of the output manifest. -/
structure ExpressionFile where
  name : String
  file : String
deriving DecidableEq

/-- BuildData: every remote file reference needed to build one model. -/
structure BuildData where
  model : BundleFile
  physics : BundleFile
  textures : List BundleFile
  transition : BundleFile
  motions : List BundleFile
  expressions : List BundleFile
deriving DecidableEq

/-- Live2dModel: the build accumulator.  The Go Motions field is a
map[string][]MotionFile; it is modelled as an association list whose keys are
kept distinct by the map-assignment operation below.  Zero values of the Go
struct are the defaults. -/
structure Live2dModel where
  model : String := ""
  physics : String := ""
  textures : List String := []
  motions : List (String × List MotionFile) := []
  expressions : List ExpressionFile := []
deriving DecidableEq

/-- The Go map assignment m[k] = v on a map modelled as an association list:
rebinds the key in place when present, otherwise adds the new binding. -/
def mapSet (m : List (String × α)) (k : String) (v : α) : List (String × α) :=
  if m.any (fun kv => decide (kv.1 = k)) then
    m.map (fun kv => if kv.1 = k then (k, v) else kv)
  else m ++ [(k, v)]

/-! ## File classification and accumulator update -/

/-- getFileType: classifies a file path by suffix and path-segment tests,
exactly in the source's test order. -/
def getFileType (filePath : String) : String :=
  if goEndsWith filePath "model.moc" then "model"
  else if goEndsWith filePath "physics.json" then "physics"
  else if goContains filePath "textures" then "texture"
  else if goContains filePath "motions" then "motion"
  else if goContains filePath "expressions" then "expression"
  else "unknown"

/-- The name under which a motion or expression file is recorded:
strings.Split(filepath.Base(filePath), ".")[0]. -/
def baseNameKey (filePath : String) : String :=
  splitDotHead (filepathBase filePath)

/-- updateModelData: folds one resolved file into the build accumulator,
dispatching on getFileType as the source's switch does. -/
def updateModelData (m : Live2dModel) (filePath relPath : String) : Live2dModel :=
  if getFileType filePath = "model" then { m with model := relPath }
  else if getFileType filePath = "physics" then { m with physics := relPath }
  else if getFileType filePath = "texture" then
    { m with textures := m.textures ++ [relPath] }
  else if getFileType filePath = "motion" then
    { m with motions := mapSet m.motions (baseNameKey filePath) [⟨relPath⟩] }
  else if getFileType filePath = "expression" then
    { m with expressions := m.expressions ++ [⟨baseNameKey filePath, relPath⟩] }
  else m

/-! ## Errors

One inductive covers every error the pipeline produces; each constructor
corresponds to one fmt.Errorf / errors.New site of downloader.go.  The spec's
HTTPStatusError is the httpStatus constructor, its ContentMismatchError the
contentMismatch constructor. -/

/-- The errors of the download/build pipeline. -/
inductive Err where
  | canceled            -- "download canceled" (ctx observed done)
  | requestFailed       -- http.NewRequestWithContext failed
  | network             -- httpClient.Do failed
  | httpStatus (code : Nat)  -- non-OK, non-tolerated response status
  | contentMismatch     -- 200 response whose Content-Type is an HTML page
  | mkdirFailed         -- os.MkdirAll failed
  | createFailed        -- os.Create failed
  | copyCanceled        -- io.Copy interrupted by ctx timeout/cancel
  | copyFailed          -- io.Copy failed
  | relPathFailed       -- filepath.Rel failed
  | marshalFailed       -- json.MarshalIndent failed
  | writeManifestFailed -- os.WriteFile of model.json failed
deriving DecidableEq

/-! ## Asset Fetcher (DownloadBundleFile) -/

/-- The status code and declared content type of an HTTP response. -/
structure HTTPResponse where
  statusCode : Nat
  contentType : String
deriving DecidableEq

/-- The outcome of the io.Copy call in writeFileContent. -/
inductive CopyOutcome where
  | ok
  | ctxError  -- context.DeadlineExceeded or context.Canceled
  | ioError
deriving DecidableEq

/-- Environment resolving the effects of one DownloadBundleFile call: whether
the context was already done at entry, whether request construction succeeded,
the response the transport produced (none: transport failure), and the
outcomes of the directory/file-creation and body-copy steps. -/
structure DlEnv where
  ctxDone : Bool
  requestOk : Bool
  response : Option HTTPResponse
  mkdirOk : Bool
  createOk : Bool
  copy : CopyOutcome
deriving DecidableEq

/-- validateResponse: a non-OK status is an error, except that 404 is
tolerated when allowNotFound is set; an OK status whose Content-Type begins
with text/html is the host's error page and is rejected. -/
def validateResponse (resp : HTTPResponse) (allowNotFound : Bool) : Option Err :=
  if resp.statusCode ≠ 200 then
    if allowNotFound && resp.statusCode == 404 then none
    else some (.httpStatus resp.statusCode)
  else if goStartsWith resp.contentType "text/html" then some .contentMismatch
  else none

/-- createFileAndDirectory: MkdirAll of the parent directory, then os.Create.
Returns the error, if any; the file exists exactly when both succeed. -/
def createFileAndDirectory (env : DlEnv) : Option Err :=
  if !env.mkdirOk then some .mkdirFailed
  else if !env.createOk then some .createFailed
  else none

/-- writeFileContent: the io.Copy of the response body into the file. -/
def writeFileContent (env : DlEnv) : Option Err :=
  match env.copy with
  | .ok => none
  | .ctxError => some .copyCanceled
  | .ioError => some .copyFailed

/-- DownloadBundleFile.  First component: the returned error.  Second
component: whether os.Create was reached and created the file at the
destination path (true even when the subsequent body copy fails, since
os.Create has already created the file by then). -/
def DownloadBundleFile (env : DlEnv) (allowNotFound : Bool) : Option Err × Bool :=
  if env.ctxDone then (some .canceled, false)
  else if !env.requestOk then (some .requestFailed, false)
  else
    match env.response with
    | none => (some .network, false)
    | some resp =>
      match validateResponse resp allowNotFound with
      | some e => (some e, false)
      | none =>
        if allowNotFound && resp.statusCode == 404 then (none, false)
        else
          match createFileAndDirectory env with
          | some e => (some e, false)
          | none =>
            match writeFileContent env with
            | some e => (some e, true)
            | none => (none, true)

/-! ## Model Builder (Live2dBuilder) -/

/-- downloadTask.  The per-task result channel (buffered, capacity one) is
modelled by the per-task entry in the result lists below. -/
structure DownloadTask where
  bundleFile : BundleFile
  filePath : String
  allowNotFound : Bool
deriving DecidableEq

/-- downloadResult: what a worker delivers on a task's result channel. -/
structure DownloadResult where
  relPath : String := ""
  err : Option Err := none
deriving DecidableEq

/-- Live2dBuilder: the per-model builder.  dataPath is filepath.Join(path,
"data") as in NewLive2dBuilder. -/
structure Live2dBuilder where
  path : String
  data : BuildData
  modelName : String

/-- The data directory of a builder. -/
def Live2dBuilder.dataPath (b : Live2dBuilder) : String :=
  filepathJoin b.path "data"

/-- The destination paths prepareDownloadTasks examines, in source order
(model.moc, physics.json, the textures, the motions, the expressions), each
with its bundle reference and its allowNotFound flag — allowNotFound is true
only for physics.json. -/
def requiredFiles (b : Live2dBuilder) : List DownloadTask :=
  ⟨b.data.model, filepathJoin b.dataPath "model.moc", false⟩ ::
  ⟨b.data.physics, filepathJoin b.dataPath "physics.json", true⟩ ::
  (b.data.textures.map
      (fun t => ⟨t, filepathJoin (filepathJoin b.dataPath "textures") t.fileName, false⟩)
    ++ b.data.motions.map
      (fun t => ⟨t, filepathJoin (filepathJoin b.dataPath "motions") t.fileName, false⟩)
    ++ b.data.expressions.map
      (fun t => ⟨t, filepathJoin (filepathJoin b.dataPath "expressions") t.fileName, false⟩))

/-- prepareDownloadTasks: one os.Stat per destination; statNotExist f is true
when os.Stat(f) failed with os.IsNotExist.  Missing destinations become
download tasks, the rest are recorded as existing files, both in source
order. -/
def prepareDownloadTasks (b : Live2dBuilder) (statNotExist : String → Bool) :
    List DownloadTask × List String :=
  (requiredFiles b).foldl
    (fun acc t =>
      if statNotExist t.filePath then (acc.1 ++ [t], acc.2)
      else (acc.1, acc.2 ++ [t.filePath]))
    ([], [])

/-- The body a worker of startWorkerPool runs for one dequeued task when the
context is not done: DownloadBundleFile, then filepath.Rel, delivering exactly
one downloadResult on the task's buffered channel. -/
def workerRun (basePath : String) (env : DlEnv) (task : DownloadTask) : DownloadResult :=
  match DownloadBundleFile env task.allowNotFound with
  | (some e, _) => { err := some e }
  | (none, _) =>
    match filepathRel basePath task.filePath with
    | none => { err := some .relPathFailed }
    | some rp => { relPath := rp }

/-- processDownloadResults, for runs in which the select always takes the
result branch (no mid-loop cancellation).  Walks the tasks in creation order;
the first received error is returned at once.  Returns the first error, the
accumulated model, and how many per-task results were actually received. -/
def processDownloadResults (m : Live2dModel) :
    List (String × DownloadResult) → Option Err × Live2dModel × Nat
  | [] => (none, m, 0)
  | (fp, r) :: rest =>
    match r.err with
    | some e => (some e, m, 1)
    | none =>
      let out := processDownloadResults (updateModelData m fp r.relPath) rest
      (out.1, out.2.1, out.2.2 + 1)

/-- processExistingFiles: folds the already-present files into the
accumulator, computing each relative path first; a filepath.Rel failure stops
the walk, keeping the updates made so far (the Go code mutates b.model in
place). -/
def processExistingFiles (basePath : String) (m : Live2dModel) :
    List String → Option Err × Live2dModel
  | [] => (none, m)
  | f :: rest =>
    match filepathRel basePath f with
    | none => (some .relPathFailed, m)
    | some rp => processExistingFiles basePath (updateModelData m f rp) rest

/-! ## Construct -/

/-- Environment resolving the effects of one Construct call: how the
gate-acquisition select resolved, whether MkdirAll of the data directory
succeeded, the result of the per-destination existence checks, the
per-destination download environments, and the outcomes of the two
manifest-creation steps. -/
structure ConstructEnv where
  ctxDoneAtAcquire : Bool
  mkdirDataOk : Bool
  statNotExist : String → Bool
  dlEnv : String → DlEnv
  marshalOk : Bool
  writeManifestOk : Bool

/-- The path of the written manifest, filepath.Join(b.path, "model.json"). -/
def manifestPath (b : Live2dBuilder) : String :=
  filepathJoin b.path "model.json"

/-- Everything one Construct call did: its returned error, how often it
acquired and released the model-concurrency semaphore, whether it reached the
MkdirAll of the data directory and the existence scan, the results its workers
delivered, how many of them the result loop received, the destination files
the workers created (plus the manifest when written), whether the manifest was
written, and the final accumulator. -/
structure BuildOutcome where
  err : Option Err
  acquires : Nat
  releases : Nat
  mkdirAttempted : Bool
  scanned : Bool
  taskResults : List DownloadResult
  received : Nat
  createdFiles : List String
  manifestWritten : Bool
  finalModel : Live2dModel

/-- Construct: acquire the gate (the select may instead observe cancellation),
MkdirAll the data directory (releasing the gate on failure inside
setupDownloadEnvironment; on every later path the deferred release fires),
partition the required files, fold the existing files, drive the download
tasks through the worker pool and the result loop, and finally marshal and
write model.json. -/
def ConstructRun (b : Live2dBuilder) (env : ConstructEnv) : BuildOutcome :=
  if env.ctxDoneAtAcquire then
    { err := some .canceled, acquires := 0, releases := 0, mkdirAttempted := false,
      scanned := false, taskResults := [], received := 0, createdFiles := [],
      manifestWritten := false, finalModel := {} }
  else if !env.mkdirDataOk then
    { err := some .mkdirFailed, acquires := 1, releases := 1, mkdirAttempted := true,
      scanned := false, taskResults := [], received := 0, createdFiles := [],
      manifestWritten := false, finalModel := {} }
  else
    let pr := prepareDownloadTasks b env.statNotExist
    let results := pr.1.map (fun t => workerRun b.path (env.dlEnv t.filePath) t)
    let created :=
      (pr.1.filter
        (fun t => (DownloadBundleFile (env.dlEnv t.filePath) t.allowNotFound).2)).map
        (fun t => t.filePath)
    match processExistingFiles b.path {} pr.2 with
    | (some e, m1) =>
      { err := some e, acquires := 1, releases := 1, mkdirAttempted := true,
        scanned := true, taskResults := results, received := 0,
        createdFiles := created, manifestWritten := false, finalModel := m1 }
    | (none, m1) =>
      let loop := processDownloadResults m1 ((pr.1.map (fun t => t.filePath)).zip results)
      match loop.1 with
      | some e =>
        { err := some e, acquires := 1, releases := 1, mkdirAttempted := true,
          scanned := true, taskResults := results, received := loop.2.2,
          createdFiles := created, manifestWritten := false, finalModel := loop.2.1 }
      | none =>
        if !env.marshalOk then
          { err := some .marshalFailed, acquires := 1, releases := 1,
            mkdirAttempted := true, scanned := true, taskResults := results,
            received := loop.2.2, createdFiles := created,
            manifestWritten := false, finalModel := loop.2.1 }
        else if !env.writeManifestOk then
          { err := some .writeManifestFailed, acquires := 1, releases := 1,
            mkdirAttempted := true, scanned := true, taskResults := results,
            received := loop.2.2, createdFiles := created,
            manifestWritten := false, finalModel := loop.2.1 }
        else
          { err := none, acquires := 1, releases := 1, mkdirAttempted := true,
            scanned := true, taskResults := results, received := loop.2.2,
            createdFiles := created ++ [manifestPath b],
            manifestWritten := true, finalModel := loop.2.1 }

/-- The on-disk state after a Construct call, as a predicate on paths: a path
exists afterwards when it existed before or the call created it.  No code
path of Construct removes a file. -/
def fsAfter (fs : String → Bool) (o : BuildOutcome) (p : String) : Bool :=
  fs p || o.createdFiles.contains p

/-! ## The model-concurrency gate (modelSem)

modelSem is a buffered channel of capacity MaxConcurrentModels.  A trace of
its completed operations is a list of events; a send (acquire) can only have
completed while fewer than cap slots were held, a receive (release) only while
a slot was held. -/

/-- One completed operation on the gate channel. -/
inductive GateEvent where
  | acq
  | rel
deriving DecidableEq

/-- Validity of a completed-event trace of the gate channel with capacity cap,
starting from h held slots: channel semantics of make(chan struct..., cap). -/
def validGateTrace (cap : Nat) : Nat → List GateEvent → Bool
  | _, [] => true
  | h, .acq :: t => decide (h < cap) && validGateTrace cap (h + 1) t
  | h, .rel :: t => decide (0 < h) && validGateTrace cap (h - 1) t

/-- Held slots after a trace, starting from h. -/
def heldAfter : Nat → List GateEvent → Nat
  | h, [] => h
  | h, .acq :: t => heldAfter (h + 1) t
  | h, .rel :: t => heldAfter (h - 1) t

/-! ## createModelData: the output manifest and its serialization

createModelData builds a model.Data value and serializes it with
json.MarshalIndent(modelData, "", "  ").  Go's encoder emits struct fields in
declaration order and map keys in sorted (byte-wise ascending) order, so the
produced bytes are a function of the field contents alone.  The JSON tree and
the encoder are modelled below; numeric literals of the two constant blocks
are carried as their rendered text. -/

/-- A JSON value as Go's encoder sees it: object fields already carry the
order in which they are emitted. -/
inductive JValue where
  | jstr (s : String)
  | jnum (lit : String)
  | jarr (elems : List JValue)
  | jobj (fields : List (String × JValue))

/-- String escaping of the encoder, for the characters occurring in asset
paths and names. -/
def jsonEscapeChar (c : Char) : String :=
  if c = '"' then "\\\"" else if c = '\\' then "\\\\" else String.singleton c

/-- A quoted JSON string literal. -/
def jsonQuote (s : String) : String :=
  "\"" ++ String.join (s.data.map jsonEscapeChar) ++ "\""

/-- The indentation of MarshalIndent(v, "", "  ") at nesting depth d. -/
def jsonIndent (d : Nat) : String :=
  String.join (List.replicate d "  ")

/-- MarshalIndent-style rendering of a JSON tree. -/
def serializeJ (d : Nat) : JValue → String
  | .jstr s => jsonQuote s
  | .jnum lit => lit
  | .jarr [] => "[]"
  | .jarr (v :: vs) =>
    "[\n"
      ++ String.intercalate ",\n"
          (((v :: vs).attach).map (fun x => jsonIndent (d + 1) ++ serializeJ (d + 1) x.1))
      ++ "\n" ++ jsonIndent d ++ "]"
  | .jobj [] => "\x7b\x7d"
  | .jobj (f :: fs) =>
    "\x7b\n"
      ++ String.intercalate ",\n"
          (((f :: fs).attach).map
            (fun x => jsonIndent (d + 1) ++ jsonQuote x.1.1 ++ ": " ++ serializeJ (d + 1) x.1.2))
      ++ "\n" ++ jsonIndent d ++ "\x7d"
termination_by v => sizeOf v
decreasing_by
  all_goals simp_wf
  · have h := List.sizeOf_lt_of_mem x.2
    simp at h
    omega
  · obtain ⟨⟨k, v2⟩, hmem⟩ := x
    have h := List.sizeOf_lt_of_mem hmem
    simp at h ⊢
    omega

/-- Byte-wise ascending comparison of keys, the order in which Go's encoder
emits map entries. -/
def keyLe : List Char → List Char → Bool
  | [], _ => true
  | _ :: _, [] => false
  | c :: cs, d :: ds =>
    if c < d then true
    else if d < c then false
    else keyLe cs ds

/-- keyLe lifted to association-list entries. -/
def keyPairLe (p q : String × α) : Bool :=
  keyLe p.1.data q.1.data

/-- The encoder's map-entry ordering: entries sorted by key. -/
def sortByKey (l : List (String × α)) : List (String × α) :=
  l.mergeSort keyPairLe

/-- The constant layout block of createModelData, keys in emission order. -/
def layoutJson : JValue :=
  .jobj [("center_x", .jnum "0"), ("center_y", .jnum "0"), ("width", .jnum "2")]

/-- The constant hit_areas_custom block of createModelData, keys in emission
order. -/
def hitAreasCustomJson : JValue :=
  .jobj [("body_x", .jarr [.jnum "-0.3", .jnum "0.2"]),
         ("body_y", .jarr [.jnum "0.3", .jnum "-1.9"]),
         ("head_x", .jarr [.jnum "-0.25", .jnum "1"]),
         ("head_y", .jarr [.jnum "0.25", .jnum "0.2"])]

/-- The motions map as emitted: entries sorted by motion name, each value the
list of its motion-file objects. -/
def motionsJson (motions : List (String × List MotionFile)) : JValue :=
  .jobj ((sortByKey motions).map
    (fun kv => (kv.1, .jarr (kv.2.map (fun mf => .jobj [("file", .jstr mf.file)])))))

/-- The JSON tree of the model.Data value createModelData builds, fields in
the struct's declaration order. -/
def createModelDataJson (m : Live2dModel) : JValue :=
  .jobj [("version", .jstr "Sample 1.0.0"),
         ("layout", layoutJson),
         ("hit_areas_custom", hitAreasCustomJson),
         ("model", .jstr m.model),
         ("physics", .jstr m.physics),
         ("textures", .jarr (m.textures.map .jstr)),
         ("motions", motionsJson m.motions),
         ("expressions", .jarr (m.expressions.map
            (fun e => .jobj [("name", .jstr e.name), ("file", .jstr e.file)])))]

/-- The bytes createModelData writes to model.json. -/
def createModelDataBytes (m : Live2dModel) : String :=
  serializeJ 0 (createModelDataJson m)

/-- Field lookup in a serialized-object tree. -/
def jsonField : JValue → String → Option JValue
  | .jobj fields, k => fields.lookup k
  | _, _ => none

/-! ## The spec's motion-name rule -/

/-- Models Go filepath.Ext: the suffix of the final path element beginning at
its final dot, empty when the element has no dot. -/
def filepathExt (path : String) : String :=
  let revElem := path.data.reverse.takeWhile (fun c => c ≠ '/')
  if revElem.contains '.' then
    String.mk ('.' :: (revElem.takeWhile (fun c => c ≠ '.')).reverse)
  else ""

/-- Models Go strings.TrimSuffix s suf. -/
def goTrimSuffix (s suf : String) : String :=
  if goEndsWith s suf then String.mk (s.data.take (s.data.length - suf.data.length))
  else s

/-- Modelled from the spec: the motion/expression name the spec describes,
"the file's base name without extension" — the base name with its (final)
extension removed.  The source instead keeps only the part of the base name
before its first dot; the two differ on base names with more than one dot. -/
def specMotionName (filePath : String) : String :=
  goTrimSuffix (filepathBase filePath) (filepathExt (filepathBase filePath))

/-! ## Concrete fixtures used by the witness and counterexample theorems -/

/-- A download environment in which every effect succeeds and the response is
a 200 with a binary content type. -/
def dlEnvOK : DlEnv :=
  { ctxDone := false, requestOk := true,
    response := some ⟨200, "application/octet-stream"⟩,
    mkdirOk := true, createOk := true, copy := .ok }

/-- A download environment whose response is a 404 HTML error page. -/
def dlEnv404 : DlEnv :=
  { ctxDone := false, requestOk := true, response := some ⟨404, "text/html"⟩,
    mkdirOk := true, createOk := true, copy := .ok }

/-- A download environment whose response is a 200 carrying an HTML error
page. -/
def dlEnvHTML : DlEnv :=
  { ctxDone := false, requestOk := true,
    response := some ⟨200, "text/html; charset=utf-8"⟩,
    mkdirOk := true, createOk := true, copy := .ok }

/-- A one-texture, one-motion builder rooted at "m". -/
def builderM : Live2dBuilder :=
  { path := "m",
    data := { model := ⟨"bdl", "model.moc"⟩, physics := ⟨"bdl", "physics.json"⟩,
              textures := [⟨"bdl", "texture_00.png"⟩], transition := ⟨"bdl", "transition"⟩,
              motions := [⟨"bdl", "idle01.mtn"⟩], expressions := [] },
    modelName := "m" }

/-- A fresh-directory build of builderM in which only the physics request
returns 404 and everything else succeeds. -/
def cenvPhysics404 : ConstructEnv :=
  { ctxDoneAtAcquire := false, mkdirDataOk := true, statNotExist := fun _ => true,
    dlEnv := fun p => if p = "m/data/physics.json" then dlEnv404 else dlEnvOK,
    marshalOk := true, writeManifestOk := true }

/-- A fresh-directory build of builderM in which only the texture request
returns 404 and everything else succeeds. -/
def cenvTexture404 : ConstructEnv :=
  { ctxDoneAtAcquire := false, mkdirDataOk := true, statNotExist := fun _ => true,
    dlEnv := fun p => if p = "m/data/textures/texture_00.png" then dlEnv404 else dlEnvOK,
    marshalOk := true, writeManifestOk := true }

/-- A fully successful fresh-directory build environment. -/
def cenvAllOK : ConstructEnv :=
  { ctxDoneAtAcquire := false, mkdirDataOk := true, statNotExist := fun _ => true,
    dlEnv := fun _ => dlEnvOK, marshalOk := true, writeManifestOk := true }

/-! # Theorems

## Supporting lemmas -/

theorem prepare_foldl (f : String → Bool) (l : List DownloadTask)
    (a : List DownloadTask) (e : List String) :
    l.foldl
      (fun acc t =>
        if f t.filePath then (acc.1 ++ [t], acc.2) else (acc.1, acc.2 ++ [t.filePath]))
      (a, e)
      = (a ++ l.filter (fun t => f t.filePath),
         e ++ (l.filter (fun t => !f t.filePath)).map (fun t => t.filePath)) := by
  induction l generalizing a e with
  | nil => simp
  | cons t ts ih => by_cases h : f t.filePath <;> simp [h, ih]

theorem prepareDownloadTasks_eq (b : Live2dBuilder) (f : String → Bool) :
    prepareDownloadTasks b f
      = ((requiredFiles b).filter (fun t => f t.filePath),
         ((requiredFiles b).filter (fun t => !f t.filePath)).map (fun t => t.filePath)) := by
  unfold prepareDownloadTasks
  rw [prepare_foldl]
  simp

theorem gate_bound (cap : Nat) : ∀ (t : List GateEvent) (h : Nat),
    validGateTrace cap h t = true → h ≤ cap → heldAfter h t ≤ cap := by
  intro t
  induction t with
  | nil => intro h _ hh; simpa [heldAfter] using hh
  | cons e rest ih =>
    intro h hv hh
    cases e with
    | acq =>
      simp [validGateTrace] at hv
      exact ih (h + 1) hv.2 hv.1
    | rel =>
      simp [validGateTrace] at hv
      exact ih (h - 1) hv.2 (by omega)

theorem pdr_all_ok (l : List (String × DownloadResult)) :
    ∀ (m : Live2dModel), (∀ x ∈ l, x.2.err = none) →
      processDownloadResults m l
        = (none, l.foldl (fun acc x => updateModelData acc x.1 x.2.relPath) m, l.length) := by
  induction l with
  | nil => intro m _; rfl
  | cons x xs ih =>
    intro m hok
    obtain ⟨fp, r⟩ := x
    have hx : r.err = none := hok (fp, r) (by simp)
    simp [processDownloadResults, hx,
      ih (updateModelData m fp r.relPath) (fun y hy => hok y (by simp [hy]))]

theorem pdr_first_err (x0 : String × DownloadResult) (e : Err)
    (post : List (String × DownloadResult)) :
    ∀ (pre : List (String × DownloadResult)) (m : Live2dModel),
      (∀ y ∈ pre, y.2.err = none) → x0.2.err = some e →
      processDownloadResults m (pre ++ x0 :: post)
        = (some e, pre.foldl (fun acc y => updateModelData acc y.1 y.2.relPath) m,
           pre.length + 1) := by
  intro pre
  induction pre with
  | nil =>
    intro m _ hx
    obtain ⟨fp, r⟩ := x0
    simp only at hx
    simp [processDownloadResults, hx]
  | cons y ys ih =>
    intro m hok hx
    obtain ⟨fp, r⟩ := y
    have hy : r.err = none := hok (fp, r) (by simp)
    simp [processDownloadResults, hy,
      ih (updateModelData m fp r.relPath) (fun z hz => hok z (by simp [hz])) hx]

theorem pdr_none_iff (l : List (String × DownloadResult)) :
    ∀ m, (processDownloadResults m l).1 = none ↔ ∀ x ∈ l, x.2.err = none := by
  induction l with
  | nil => intro m; simp [processDownloadResults]
  | cons x xs ih =>
    intro m
    obtain ⟨fp, r⟩ := x
    cases hr : r.err with
    | none => simp [processDownloadResults, hr, ih]
    | some e => simp [processDownloadResults, hr]

theorem updateModelData_model (m : Live2dModel) (p r : String)
    (h : getFileType p = "model") : updateModelData m p r = { m with model := r } := by
  unfold updateModelData
  rw [h]
  simp

theorem updateModelData_physics (m : Live2dModel) (p r : String)
    (h : getFileType p = "physics") : updateModelData m p r = { m with physics := r } := by
  unfold updateModelData
  rw [h]
  simp

theorem updateModelData_texture (m : Live2dModel) (p r : String)
    (h : getFileType p = "texture") :
    updateModelData m p r = { m with textures := m.textures ++ [r] } := by
  unfold updateModelData
  rw [h]
  simp

theorem updateModelData_motion (m : Live2dModel) (p r : String)
    (h : getFileType p = "motion") :
    updateModelData m p r
      = { m with motions := mapSet m.motions (baseNameKey p) [⟨r⟩] } := by
  unfold updateModelData
  rw [h]
  simp

theorem updateModelData_expression (m : Live2dModel) (p r : String)
    (h : getFileType p = "expression") :
    updateModelData m p r
      = { m with expressions := m.expressions ++ [⟨baseNameKey p, r⟩] } := by
  unfold updateModelData
  rw [h]
  simp

theorem updateModelData_keeps_physics (m : Live2dModel) (p r : String)
    (h : getFileType p ≠ "physics") :
    (updateModelData m p r).physics = m.physics := by
  unfold updateModelData
  split_ifs <;> simp_all

/-! ## C1 -/

/-- C1: prepareDownloadTasks partitions the required destinations — model.moc,
physics.json, every texture, motion, and expression destination — between the
task list and the existing-file list; a task is created for a required file
exactly when the existence check reports its destination missing; when every
required file exists, no task is created. -/
theorem c1_prepare_partitions (b : Live2dBuilder) (statNE : String → Bool) :
    (((prepareDownloadTasks b statNE).1.map (fun t => t.filePath))
        ++ (prepareDownloadTasks b statNE).2).Perm
      ((requiredFiles b).map (fun t => t.filePath))
    ∧ (∀ t ∈ requiredFiles b,
        (t ∈ (prepareDownloadTasks b statNE).1 ↔ statNE t.filePath = true))
    ∧ (∀ t ∈ (prepareDownloadTasks b statNE).1, statNE t.filePath = true)
    ∧ (∀ p ∈ (prepareDownloadTasks b statNE).2, statNE p = false)
    ∧ ((∀ t ∈ requiredFiles b, statNE t.filePath = false) →
        (prepareDownloadTasks b statNE).1 = []) := by
  rw [prepareDownloadTasks_eq]
  refine ⟨?_, ?_, ?_, ?_, ?_⟩
  · have hp := List.filter_append_perm (fun t => statNE t.filePath) (requiredFiles b)
    have := hp.map (fun t : DownloadTask => t.filePath)
    simpa using this
  · intro t ht
    simp [List.mem_filter, ht]
  · intro t ht
    exact (List.mem_filter.mp ht).2
  · intro p hp
    simp only [List.mem_map] at hp
    obtain ⟨t, htf, rfl⟩ := hp
    have := (List.mem_filter.mp htf).2
    simpa using this
  · intro hall
    simp only [List.filter_eq_nil_iff]
    intro t ht
    simp [hall t ht]

/-- Witness for C1: at the concrete builder with every destination present,
the hypotheses hold and no task is created. -/
theorem c1_prepare_partitions_witness :
    (∀ t ∈ requiredFiles builderM, (fun _ => false : String → Bool) t.filePath = false)
    ∧ (prepareDownloadTasks builderM (fun _ => false)).1 = [] :=
  ⟨by decide, (c1_prepare_partitions builderM (fun _ => false)).2.2.2.2 (by decide)⟩

theorem results_ok_of_loop_none (b : Live2dBuilder) (env : ConstructEnv)
    (m1 : Live2dModel)
    (hl : (processDownloadResults m1
        (((prepareDownloadTasks b env.statNotExist).1.map (fun t => t.filePath)).zip
          ((prepareDownloadTasks b env.statNotExist).1.map
            (fun t => workerRun b.path (env.dlEnv t.filePath) t)))).1 = none) :
    ∀ r ∈ (prepareDownloadTasks b env.statNotExist).1.map
        (fun t => workerRun b.path (env.dlEnv t.filePath) t), r.err = none := by
  intro r hr
  have hz := (pdr_none_iff _ m1).mp hl
  have hmap : (((prepareDownloadTasks b env.statNotExist).1.map (fun t => t.filePath)).zip
      ((prepareDownloadTasks b env.statNotExist).1.map
        (fun t => workerRun b.path (env.dlEnv t.filePath) t))).map Prod.snd
      = (prepareDownloadTasks b env.statNotExist).1.map
          (fun t => workerRun b.path (env.dlEnv t.filePath) t) :=
    List.map_snd_zip _ _ (by simp)
  rw [← hmap] at hr
  obtain ⟨⟨a, r'⟩, hmem, rfl⟩ := List.mem_map.mp hr
  exact hz _ hmem

theorem ConstructRun_invariants (b : Live2dBuilder) (env : ConstructEnv) :
    (ConstructRun b env).acquires ≤ 1
    ∧ (ConstructRun b env).releases = (ConstructRun b env).acquires
    ∧ ((ConstructRun b env).mkdirAttempted = true → (ConstructRun b env).acquires = 1)
    ∧ ((ConstructRun b env).scanned = true → (ConstructRun b env).acquires = 1)
    ∧ (env.ctxDoneAtAcquire = true →
        (ConstructRun b env).err = some .canceled
        ∧ (ConstructRun b env).acquires = 0
        ∧ (ConstructRun b env).mkdirAttempted = false
        ∧ (ConstructRun b env).scanned = false
        ∧ (ConstructRun b env).taskResults = []
        ∧ (ConstructRun b env).createdFiles = []
        ∧ (ConstructRun b env).manifestWritten = false)
    ∧ ((ConstructRun b env).err ≠ none → (ConstructRun b env).manifestWritten = false)
    ∧ ((ConstructRun b env).manifestWritten = true →
        (ConstructRun b env).err = none
        ∧ ∀ r ∈ (ConstructRun b env).taskResults, r.err = none) := by
  by_cases hc : env.ctxDoneAtAcquire = true
  · simp [ConstructRun, hc]
  · rw [Bool.not_eq_true] at hc
    by_cases hm : env.mkdirDataOk = true
    · rcases hex : processExistingFiles b.path {}
        (prepareDownloadTasks b env.statNotExist).2 with ⟨oe, m1⟩
      cases oe with
      | some e => simp [ConstructRun, hc, hm, hex]
      | none =>
        cases hl : (processDownloadResults m1
            (((prepareDownloadTasks b env.statNotExist).1.map (fun t => t.filePath)).zip
              ((prepareDownloadTasks b env.statNotExist).1.map
                (fun t => workerRun b.path (env.dlEnv t.filePath) t)))).1 with
        | some e => simp [ConstructRun, hc, hm, hex, hl]
        | none =>
          by_cases hmar : env.marshalOk = true
          · by_cases hwr : env.writeManifestOk = true
            · simp only [ConstructRun, hc, hm, hex, hl, hmar, hwr]
              refine ⟨by simp, by simp, by simp, by simp, by simp, by simp, fun _ => ⟨by simp, ?_⟩⟩
              simpa using results_ok_of_loop_none b env m1 hl
            · rw [Bool.not_eq_true] at hwr
              simp [ConstructRun, hc, hm, hex, hl, hmar, hwr]
          · rw [Bool.not_eq_true] at hmar
            simp [ConstructRun, hc, hm, hex, hl, hmar]
    · rw [Bool.not_eq_true] at hm
      simp [ConstructRun, hc, hm]

/-! ## C4 -/

/-- C4: every Construct call acquires at most one gate slot, releases exactly
as many slots as it acquired, has acquired before any directory creation or
scanning/download work, and — when the acquisition select observes
cancellation — returns the cancellation error with no acquisition and no side
effects; under the gate channel's semantics the number of held slots never
exceeds the capacity. -/
theorem c4_gate_discipline (b : Live2dBuilder) (env : ConstructEnv) (cap : Nat)
    (t : List GateEvent) :
    (ConstructRun b env).acquires ≤ 1
    ∧ (ConstructRun b env).releases = (ConstructRun b env).acquires
    ∧ ((ConstructRun b env).mkdirAttempted = true → (ConstructRun b env).acquires = 1)
    ∧ ((ConstructRun b env).scanned = true → (ConstructRun b env).acquires = 1)
    ∧ (env.ctxDoneAtAcquire = true →
        (ConstructRun b env).err = some .canceled
        ∧ (ConstructRun b env).acquires = 0
        ∧ (ConstructRun b env).mkdirAttempted = false
        ∧ (ConstructRun b env).scanned = false
        ∧ (ConstructRun b env).taskResults = []
        ∧ (ConstructRun b env).createdFiles = []
        ∧ (ConstructRun b env).manifestWritten = false)
    ∧ (validGateTrace cap 0 t = true → heldAfter 0 t ≤ cap) := by
  obtain ⟨h1, h2, h3, h4, h5, _, _⟩ := ConstructRun_invariants b env
  exact ⟨h1, h2, h3, h4, h5, fun hv => gate_bound cap t 0 hv (Nat.zero_le cap)⟩

/-- Witness for C4: a concrete cancelled call and a concrete valid trace of a
capacity-two gate. -/
theorem c4_gate_discipline_witness :
    ({ cenvAllOK with ctxDoneAtAcquire := true } : ConstructEnv).ctxDoneAtAcquire = true
    ∧ validGateTrace 2 0 [.acq, .acq, .rel, .acq, .rel, .rel] = true
    ∧ (ConstructRun builderM { cenvAllOK with ctxDoneAtAcquire := true }).acquires = 0
    ∧ heldAfter 0 [.acq, .acq, .rel, .acq, .rel, .rel] ≤ 2 := by
  refine ⟨rfl, by decide, ?_, ?_⟩
  · exact ((c4_gate_discipline builderM { cenvAllOK with ctxDoneAtAcquire := true } 2
      [.acq, .acq, .rel, .acq, .rel, .rel]).2.2.2.2.1 rfl).2.1
  · exact (c4_gate_discipline builderM { cenvAllOK with ctxDoneAtAcquire := true } 2
      [.acq, .acq, .rel, .acq, .rel, .rel]).2.2.2.2.2 (by decide)

/-! ## C5 -/

theorem mem_prepare_tasks_path (b : Live2dBuilder) (f : String → Bool) (p : String)
    (hp : p ∈ (prepareDownloadTasks b f).1.map (fun t => t.filePath)) : f p = true := by
  rw [prepareDownloadTasks_eq] at hp
  simp only [List.mem_map, List.mem_filter] at hp
  obtain ⟨t, ⟨_, hf⟩, rfl⟩ := hp
  exact hf

/-- C5: a Construct call that returns an error has not written the model.json
manifest; the manifest is written only when every task resolved without error;
no file present before or created during the call is removed (the on-disk
state only grows); and a retried build creates no task for a file the failed
call left on disk. -/
theorem c5_no_partial_manifest_no_rollback (b : Live2dBuilder) (env : ConstructEnv)
    (fs : String → Bool) :
    ((ConstructRun b env).err ≠ none → (ConstructRun b env).manifestWritten = false)
    ∧ ((ConstructRun b env).manifestWritten = true →
        (ConstructRun b env).err = none
        ∧ ∀ r ∈ (ConstructRun b env).taskResults, r.err = none)
    ∧ (∀ p, fs p = true → fsAfter fs (ConstructRun b env) p = true)
    ∧ (∀ p, fsAfter fs (ConstructRun b env) p = true →
        p ∉ (prepareDownloadTasks b (fun q => !fsAfter fs (ConstructRun b env) q)).1.map
            (fun t => t.filePath)) := by
  obtain ⟨_, _, _, _, _, h6, h7⟩ := ConstructRun_invariants b env
  refine ⟨h6, h7, ?_, ?_⟩
  · intro p hp
    simp [fsAfter, hp]
  · intro p hp hmem
    have := mem_prepare_tasks_path b _ p hmem
    simp [hp] at this

/-- Witness for C5: a fully successful concrete build, one of whose created
files is then skipped by a re-run. -/
theorem c5_no_partial_manifest_no_rollback_witness :
    (ConstructRun builderM cenvAllOK).manifestWritten = true
    ∧ (ConstructRun builderM cenvAllOK).err = none
    ∧ fsAfter (fun _ => false) (ConstructRun builderM cenvAllOK) "m/data/model.moc" = true
    ∧ "m/data/model.moc" ∉ (prepareDownloadTasks builderM
        (fun q => !fsAfter (fun _ => false) (ConstructRun builderM cenvAllOK) q)).1.map
          (fun t => t.filePath) := by
  refine ⟨by decide, ?_, by decide, ?_⟩
  · exact ((c5_no_partial_manifest_no_rollback builderM cenvAllOK (fun _ => false)).2.1
      (by decide)).1
  · exact (c5_no_partial_manifest_no_rollback builderM cenvAllOK
      (fun _ => false)).2.2.2 "m/data/model.moc" (by decide)

/-! ## C2 -/

/-- C2 (amended): the first outcome carrying an error is returned, unwrapped,
as the build result, and the result loop stops at that point: it has received
exactly the outcomes up to and including the first erroneous one, and the
outcomes of the remaining tasks are never received (no worker blocks on
delivery regardless, since every task's result channel is buffered with
capacity one). -/
theorem c2_first_error_stops_loop (m : Live2dModel)
    (pre : List (String × DownloadResult)) (x0 : String × DownloadResult)
    (post : List (String × DownloadResult)) (e : Err)
    (hpre : ∀ y ∈ pre, y.2.err = none) (hx : x0.2.err = some e) :
    (processDownloadResults m (pre ++ x0 :: post)).1 = some e
    ∧ (processDownloadResults m (pre ++ x0 :: post)).2.2 = pre.length + 1 := by
  rw [pdr_first_err x0 e post pre m hpre hx]
  exact ⟨rfl, rfl⟩

/-- Witness for C2's amended statement at a concrete two-task run. -/
theorem c2_first_error_stops_loop_witness :
    (∀ y ∈ ([] : List (String × DownloadResult)), y.2.err = none)
    ∧ ((("a", ⟨"", some Err.copyFailed⟩) : String × DownloadResult).2.err
        = some Err.copyFailed)
    ∧ (processDownloadResults {}
        [("a", ⟨"", some Err.copyFailed⟩), ("b", ⟨"x", none⟩)]).1 = some Err.copyFailed
    ∧ (processDownloadResults {}
        [("a", ⟨"", some Err.copyFailed⟩), ("b", ⟨"x", none⟩)]).2.2 = 0 + 1 := by
  refine ⟨by simp, rfl, ?_⟩
  have h := c2_first_error_stops_loop {} [] ("a", ⟨"", some Err.copyFailed⟩)
    [("b", ⟨"x", none⟩)] Err.copyFailed (by simp) rfl
  simpa using h

/-- C2 counterexample: with two tasks whose first outcome errors, the result
loop receives one outcome and returns — it does not receive the outcome of
every remaining task, contrary to the claim. -/
theorem c2_counterexample :
    (processDownloadResults {}
        [("a", ⟨"", some Err.copyFailed⟩), ("b", ⟨"x", none⟩)]).1 = some Err.copyFailed
    ∧ (processDownloadResults {}
        [("a", ⟨"", some Err.copyFailed⟩), ("b", ⟨"x", none⟩)]).2.2
      ≠ ([("a", (⟨"", some Err.copyFailed⟩ : DownloadResult)),
          ("b", ⟨"x", none⟩)] : List (String × DownloadResult)).length := by
  exact ⟨rfl, by decide⟩

/-! ## C3 -/

/-- C3: when the response status is not 200, DownloadBundleFile returns no
error exactly when allowNotFound is set and the status is 404 — in which case
no file is created — and in every other non-OK case it returns the HTTP status
error; no file is created on any non-OK status. -/
theorem c3_non_ok_status (env : DlEnv) (allowNotFound : Bool) (resp : HTTPResponse)
    (hctx : env.ctxDone = false) (hreq : env.requestOk = true)
    (hresp : env.response = some resp) (hstatus : resp.statusCode ≠ 200) :
    ((DownloadBundleFile env allowNotFound).1 = none
        ↔ allowNotFound = true ∧ resp.statusCode = 404)
    ∧ (DownloadBundleFile env allowNotFound).2 = false
    ∧ (¬(allowNotFound = true ∧ resp.statusCode = 404) →
        (DownloadBundleFile env allowNotFound).1 = some (Err.httpStatus resp.statusCode)) := by
  by_cases h404 : resp.statusCode = 404 <;> cases allowNotFound <;>
    simp [DownloadBundleFile, validateResponse, hctx, hreq, hresp, hstatus, h404]

/-- Witness for C3: the concrete 404 environment with allowNotFound set is a
successful no-op that creates no file. -/
theorem c3_non_ok_status_witness :
    ((404 : Nat) ≠ 200)
    ∧ ((DownloadBundleFile dlEnv404 true).1 = none
        ↔ true = true ∧ (404 : Nat) = 404)
    ∧ (DownloadBundleFile dlEnv404 true).2 = false := by
  have h := c3_non_ok_status dlEnv404 true ⟨404, "text/html"⟩ rfl rfl rfl (by decide)
  exact ⟨by decide, h.1, h.2.1⟩

/-! ## C7 -/

/-- C7: a 200 response whose declared content type is an HTML page makes
DownloadBundleFile on a mandatory file return the content-mismatch error, and
no file is created at the destination. -/
theorem c7_html_is_content_mismatch (env : DlEnv) (resp : HTTPResponse)
    (hctx : env.ctxDone = false) (hreq : env.requestOk = true)
    (hresp : env.response = some resp) (hstatus : resp.statusCode = 200)
    (hhtml : goStartsWith resp.contentType "text/html" = true) :
    DownloadBundleFile env false = (some Err.contentMismatch, false) := by
  simp [DownloadBundleFile, validateResponse, hctx, hreq, hresp, hstatus, hhtml]

/-- Witness for C7 at the concrete HTML-page environment. -/
theorem c7_html_is_content_mismatch_witness :
    goStartsWith "text/html; charset=utf-8" "text/html" = true
    ∧ DownloadBundleFile dlEnvHTML false = (some Err.contentMismatch, false) :=
  ⟨by decide, c7_html_is_content_mismatch dlEnvHTML ⟨200, "text/html; charset=utf-8"⟩
    rfl rfl rfl rfl (by decide)⟩

/-! ## C10 -/

/-- C10: texture and expression entries are appended unconditionally — folding
the same texture path twice appends its relative path twice, and likewise for
expressions; there is no deduplication for these categories. -/
theorem c10_texture_expression_duplicates (m : Live2dModel) (p q r s : String)
    (hp : getFileType p = "texture") (hq : getFileType q = "expression") :
    (updateModelData (updateModelData m p r) p r).textures = m.textures ++ [r, r]
    ∧ (updateModelData (updateModelData m q s) q s).expressions
        = m.expressions ++ [⟨baseNameKey q, s⟩, ⟨baseNameKey q, s⟩] := by
  rw [updateModelData_texture _ _ _ hp, updateModelData_texture _ _ _ hp,
    updateModelData_expression _ _ _ hq, updateModelData_expression _ _ _ hq]
  constructor <;> simp

/-- Witness for C10 at concrete texture and expression paths. -/
theorem c10_texture_expression_duplicates_witness :
    getFileType "data/textures/t.png" = "texture"
    ∧ getFileType "data/expressions/smile.exp.json" = "expression"
    ∧ (updateModelData (updateModelData {} "data/textures/t.png" "data/textures/t.png")
        "data/textures/t.png" "data/textures/t.png").textures
      = [] ++ ["data/textures/t.png", "data/textures/t.png"] := by
  refine ⟨by decide, by decide, ?_⟩
  exact (c10_texture_expression_duplicates {} "data/textures/t.png"
    "data/expressions/smile.exp.json" "data/textures/t.png" "x"
    (by decide) (by decide)).1

/-! ## C9 -/

theorem lookup_replace (k : String) (v : α) :
    ∀ l : List (String × α),
      (l.map (fun kv => if kv.1 = k then (k, v) else kv)).lookup k
        = if l.any (fun kv => decide (kv.1 = k)) then some v else l.lookup k := by
  intro l
  induction l with
  | nil => simp
  | cons kv rest ih =>
    obtain ⟨k1, v1⟩ := kv
    by_cases hk : k1 = k
    · subst hk
      simp [List.lookup_cons, ih]
    · have h2 : (k == k1) = false := beq_eq_false_iff_ne.mpr (fun h => hk h.symm)
      have h3 : decide (k1 = k) = false := decide_eq_false hk
      simp only [List.map_cons, if_neg hk, List.lookup_cons, h2, List.any_cons, h3,
        Bool.false_or]
      exact ih

theorem lookup_append_right (k : String) (v : α) :
    ∀ l : List (String × α), (∀ kv ∈ l, kv.1 ≠ k) →
      (l ++ [(k, v)]).lookup k = some v := by
  intro l
  induction l with
  | nil => simp
  | cons kv rest ih =>
    intro h
    obtain ⟨k1, v1⟩ := kv
    have h2 : (k == k1) = false :=
      beq_eq_false_iff_ne.mpr (fun e => h (k1, v1) (by simp) e.symm)
    simpa [List.lookup_cons, h2] using ih (fun y hy => h y (by simp [hy]))

theorem mapSet_lookup (l : List (String × α)) (k : String) (v : α) :
    (mapSet l k v).lookup k = some v := by
  unfold mapSet
  by_cases hany : l.any (fun kv => decide (kv.1 = k)) = true
  · simp [hany, lookup_replace]
  · have hany2 : l.any (fun kv => decide (kv.1 = k)) = false := by
      rwa [Bool.not_eq_true] at hany
    rw [hany2]
    simp only [Bool.false_eq_true, if_false]
    apply lookup_append_right
    intro kv hkv he
    have := List.any_eq_false.mp hany2 kv hkv
    simp [he] at this

theorem mapSet_keys (l : List (String × α)) (k : String) (v : α) :
    (mapSet l k v).map Prod.fst
      = if l.any (fun kv => decide (kv.1 = k)) then l.map Prod.fst
        else l.map Prod.fst ++ [k] := by
  unfold mapSet
  by_cases hany : l.any (fun kv => decide (kv.1 = k)) = true
  · simp only [hany, if_true, List.map_map]
    apply List.map_congr_left
    intro kv _
    obtain ⟨k1, v1⟩ := kv
    by_cases hk : k1 = k
    · subst hk
      simp
    · simp [hk]
  · have hany2 : l.any (fun kv => decide (kv.1 = k)) = false := by
      rwa [Bool.not_eq_true] at hany
    rw [hany2]
    simp

theorem mapSet_keys_nodup (l : List (String × α)) (k : String) (v : α)
    (h : (l.map Prod.fst).Nodup) : ((mapSet l k v).map Prod.fst).Nodup := by
  rw [mapSet_keys]
  by_cases hany : l.any (fun kv => decide (kv.1 = k)) = true
  · simpa [hany] using h
  · have hany2 : l.any (fun kv => decide (kv.1 = k)) = false := by
      rwa [Bool.not_eq_true] at hany
    rw [hany2]
    have hk : k ∉ l.map Prod.fst := by
      intro hmem
      obtain ⟨kv, hkv, hfst⟩ := List.mem_map.mp hmem
      have := List.any_eq_false.mp hany2 kv hkv
      simp [hfst] at this
    simp [List.nodup_append, h, hk]

theorem mapSet_values (l : List (String × α)) (k : String) (v : α) (P : α → Prop)
    (hl : ∀ kv ∈ l, P kv.2) (hv : P v) : ∀ kv ∈ mapSet l k v, P kv.2 := by
  unfold mapSet
  by_cases hany : l.any (fun kv => decide (kv.1 = k)) = true
  · simp only [hany, if_true]
    intro kv hkv
    simp only [List.mem_map] at hkv
    obtain ⟨kv0, hkv0, rfl⟩ := hkv
    by_cases hk : kv0.1 = k
    · simpa [hk] using hv
    · simpa [hk] using hl kv0 hkv0
  · have hany2 : l.any (fun kv => decide (kv.1 = k)) = false := by
      rwa [Bool.not_eq_true] at hany
    rw [hany2]
    simp only [Bool.false_eq_true, if_false]
    intro kv hkv
    rcases List.mem_append.mp hkv with hmem | hmem
    · exact hl kv hmem
    · simp only [List.mem_singleton] at hmem
      subst hmem
      exact hv

/-- C9 (amended): a motion-classified path is recorded under the part of its
base name before the first dot (which is the base name without extension
whenever the base name has at most one dot), as a singleton file list;
recording under an already-present name replaces the binding instead of
adding one, so key distinctness and the one-file-per-name invariant are
preserved across any sequence of updates. -/
theorem c9_motion_name_replaces (m : Live2dModel) (p r : String)
    (h : getFileType p = "motion") :
    (updateModelData m p r).motions.lookup (baseNameKey p) = some [⟨r⟩]
    ∧ ((updateModelData m p r).motions.map Prod.fst
        = if m.motions.any (fun kv => decide (kv.1 = baseNameKey p))
          then m.motions.map Prod.fst
          else m.motions.map Prod.fst ++ [baseNameKey p])
    ∧ ((m.motions.map Prod.fst).Nodup →
        ((updateModelData m p r).motions.map Prod.fst).Nodup)
    ∧ ((∀ kv ∈ m.motions, kv.2.length = 1) →
        ∀ kv ∈ (updateModelData m p r).motions, kv.2.length = 1) := by
  rw [updateModelData_motion _ _ _ h]
  refine ⟨mapSet_lookup _ _ _, mapSet_keys _ _ _, fun hn => mapSet_keys_nodup _ _ _ hn,
    fun hv => mapSet_values m.motions (baseNameKey p) [⟨r⟩]
      (fun x => x.length = 1) hv rfl⟩

/-- Witness for C9's amended statement at a concrete motion path. -/
theorem c9_motion_name_replaces_witness :
    getFileType "data/motions/idle01.mtn" = "motion"
    ∧ (updateModelData {} "data/motions/idle01.mtn" "x").motions.lookup
        (baseNameKey "data/motions/idle01.mtn") = some [⟨"x"⟩] :=
  ⟨by decide, (c9_motion_name_replaces {} "data/motions/idle01.mtn" "x" (by decide)).1⟩

/-- C9 counterexample: for the motion path "data/motions/a.b.mtn" the base
name without extension is "a.b", but the code stores the file under "a" — the
accumulator holds nothing under the claimed motion name. -/
theorem c9_counterexample :
    getFileType "data/motions/a.b.mtn" = "motion"
    ∧ specMotionName "data/motions/a.b.mtn" = "a.b"
    ∧ (updateModelData {} "data/motions/a.b.mtn" "data/motions/a.b.mtn").motions.map
        Prod.fst = ["a"]
    ∧ (updateModelData {} "data/motions/a.b.mtn" "data/motions/a.b.mtn").motions.lookup
        (specMotionName "data/motions/a.b.mtn") = none := by
  refine ⟨by decide, by decide, by decide, by decide⟩

/-! ## C8 -/

theorem keyLe_total : ∀ a b : List Char, keyLe a b = true ∨ keyLe b a = true := by
  intro a
  induction a with
  | nil => intro b; left; rfl
  | cons c cs ih =>
    intro b
    cases b with
    | nil => right; rfl
    | cons d ds =>
      rcases lt_trichotomy c d with h | h | h
      · left
        simp [keyLe, h]
      · subst h
        rcases ih ds with h2 | h2
        · left
          simp [keyLe, lt_irrefl, h2]
        · right
          simp [keyLe, lt_irrefl, h2]
      · right
        simp [keyLe, h]

theorem keyLe_trans : ∀ a b c : List Char,
    keyLe a b = true → keyLe b c = true → keyLe a c = true := by
  intro a
  induction a with
  | nil => intro b c _ _; rfl
  | cons x xs ih =>
    intro b c hab hbc
    cases b with
    | nil => simp [keyLe] at hab
    | cons y ys =>
      cases c with
      | nil => simp [keyLe] at hbc
      | cons z zs =>
        simp only [keyLe] at hab hbc ⊢
        rcases lt_trichotomy x y with h1 | h1 | h1
        · rcases lt_trichotomy y z with h2 | h2 | h2
          · simp [lt_trans h1 h2]
          · subst h2
            simp [h1]
          · simp [lt_asymm h2, h2] at hbc
        · subst h1
          rcases lt_trichotomy x z with h2 | h2 | h2
          · simp [h2]
          · subst h2
            simp only [lt_irrefl, if_false] at hab hbc ⊢
            exact ih ys zs hab hbc
          · simp [lt_asymm h2, h2] at hbc
        · simp [lt_asymm h1, h1] at hab

theorem keyLe_antisymm : ∀ a b : List Char,
    keyLe a b = true → keyLe b a = true → a = b := by
  intro a
  induction a with
  | nil =>
    intro b _ hba
    cases b with
    | nil => rfl
    | cons d ds => simp [keyLe] at hba
  | cons x xs ih =>
    intro b hab hba
    cases b with
    | nil => simp [keyLe] at hab
    | cons y ys =>
      simp only [keyLe] at hab hba
      rcases lt_trichotomy x y with h | h | h
      · simp [lt_asymm h, h] at hba
      · subst h
        simp only [lt_irrefl, if_false] at hab hba
        rw [ih ys hab hba]
      · simp [lt_asymm h, h] at hab

theorem keyPairLe_trans {α : Type} : ∀ a b c : String × α,
    keyPairLe a b → keyPairLe b c → keyPairLe a c := by
  intro a b c h1 h2
  exact keyLe_trans a.1.data b.1.data c.1.data h1 h2

theorem keyPairLe_total {α : Type} : ∀ a b : String × α,
    keyPairLe a b || keyPairLe b a := by
  intro a b
  rcases keyLe_total a.1.data b.1.data with h | h <;> simp [keyPairLe, h]

theorem sortByKey_perm_eq {α : Type} (l₁ l₂ : List (String × α)) (hperm : l₁.Perm l₂)
    (hnodup : (l₁.map Prod.fst).Nodup) : sortByKey l₁ = sortByKey l₂ := by
  have hs1 := List.sorted_mergeSort keyPairLe_trans keyPairLe_total l₁
  have hs2 := List.sorted_mergeSort keyPairLe_trans keyPairLe_total l₂
  have hp1 : (sortByKey l₁).Perm l₁ := List.mergeSort_perm l₁ keyPairLe
  have hp2 : (sortByKey l₂).Perm l₂ := List.mergeSort_perm l₂ keyPairLe
  have hperm12 : (sortByKey l₁).Perm (sortByKey l₂) := hp1.trans (hperm.trans hp2.symm)
  have hn1 : ((sortByKey l₁).map Prod.fst).Nodup :=
    ((hp1.map Prod.fst).nodup_iff).mpr hnodup
  have hn2 : ((sortByKey l₂).map Prod.fst).Nodup :=
    ((hp2.map Prod.fst).nodup_iff).mpr (((hperm.map Prod.fst).nodup_iff).mp hnodup)
  have hstrict : ∀ l : List (String × α),
      l.Pairwise (fun p q => keyPairLe p q = true) → (l.map Prod.fst).Nodup →
      l.Pairwise (fun p q : String × α => keyPairLe p q = true ∧ p.1 ≠ q.1) := by
    intro l hle hnd
    have hne : l.Pairwise (fun p q : String × α => p.1 ≠ q.1) := List.pairwise_map.mp hnd
    exact hle.and hne
  letI : IsAntisymm (String × α)
      (fun p q : String × α => keyPairLe p q = true ∧ p.1 ≠ q.1) := by
    refine ⟨?_⟩
    intro a b hab hba
    have hd : a.1.data = b.1.data := keyLe_antisymm a.1.data b.1.data hab.1 hba.1
    have : a.1 = b.1 := by
      cases ha : a.1
      cases hb : b.1
      rw [ha, hb] at hd
      simp only [] at hd
      exact congrArg String.mk hd
    exact absurd this hab.2
  exact List.eq_of_perm_of_sorted hperm12
    (hstrict (sortByKey l₁) (by simpa using hs1) hn1)
    (hstrict (sortByKey l₂) (by simpa using hs2) hn2)

/-- C8: the bytes createModelData serializes are a deterministic function of
the accumulator contents — for the motions map, of its bindings regardless of
representation order — and the layout and hit_areas_custom blocks of the
output are fixed constants, identical for every accumulator. -/
theorem c8_manifest_deterministic (m₁ m₂ : Live2dModel)
    (hmodel : m₁.model = m₂.model) (hphys : m₁.physics = m₂.physics)
    (htex : m₁.textures = m₂.textures) (hexp : m₁.expressions = m₂.expressions)
    (hmot : m₁.motions.Perm m₂.motions) (hnodup : (m₁.motions.map Prod.fst).Nodup) :
    createModelDataBytes m₁ = createModelDataBytes m₂
    ∧ (∀ m : Live2dModel, jsonField (createModelDataJson m) "layout" = some layoutJson)
    ∧ (∀ m : Live2dModel,
        jsonField (createModelDataJson m) "hit_areas_custom" = some hitAreasCustomJson) := by
  refine ⟨?_, fun m => rfl, fun m => rfl⟩
  have hm : motionsJson m₁.motions = motionsJson m₂.motions := by
    unfold motionsJson
    rw [sortByKey_perm_eq m₁.motions m₂.motions hmot hnodup]
  unfold createModelDataBytes createModelDataJson
  rw [hmodel, hphys, htex, hexp, hm]

/-- Witness for C8: two accumulators equal up to the order of the motions
map's bindings serialize to the same bytes. -/
theorem c8_manifest_deterministic_witness :
    (([("b", [(⟨"f1"⟩ : MotionFile)]), ("a", [⟨"f2"⟩])] :
        List (String × List MotionFile)).Perm [("a", [⟨"f2"⟩]), ("b", [⟨"f1"⟩])])
    ∧ (([("b", [(⟨"f1"⟩ : MotionFile)]), ("a", [⟨"f2"⟩])].map Prod.fst).Nodup)
    ∧ createModelDataBytes
        { motions := [("b", [⟨"f1"⟩]), ("a", [⟨"f2"⟩])] }
      = createModelDataBytes
        { motions := [("a", [⟨"f2"⟩]), ("b", [⟨"f1"⟩])] } := by
  refine ⟨by decide, by decide, ?_⟩
  exact (c8_manifest_deterministic
    { motions := [("b", [⟨"f1"⟩]), ("a", [⟨"f2"⟩])] }
    { motions := [("a", [⟨"f2"⟩]), ("b", [⟨"f1"⟩])] }
    rfl rfl rfl rfl (by decide) (by decide)).1

/-! ## C6 -/

theorem mk_data (s : String) : String.mk s.data = s := by
  cases s
  rfl

theorem filepathJoin_form (p a c : String) :
    filepathJoin (filepathJoin p a) c = p ++ "/" ++ (a ++ "/" ++ c) := by
  unfold filepathJoin
  simp [String.append_assoc]

theorem filepathRel_join (base rest : String) :
    filepathRel base (base ++ "/" ++ rest) = some rest := by
  unfold filepathRel
  have hpre : (base ++ "/").data.isPrefixOf (base ++ "/" ++ rest).data = true := by
    rw [List.isPrefixOf_iff_prefix]
    rw [String.data_append (base ++ "/") rest]
    exact List.prefix_append _ _
  rw [if_pos hpre]
  have hdrop : (base ++ "/" ++ rest).data.drop (base.data.length + 1) = rest.data := by
    rw [String.data_append (base ++ "/") rest]
    apply List.drop_left'
    rw [String.data_append]
    simp only [List.length_append]
    norm_num
  rw [hdrop, mk_data]

theorem goEndsWith_append (s t : String) : goEndsWith (s ++ t) t = true := by
  rw [goEndsWith, List.isSuffixOf_iff_suffix, String.data_append]
  exact List.suffix_append _ _

theorem phys_not_model (s : String) :
    goEndsWith (s ++ "/physics.json") "model.moc" = false := by
  rw [Bool.eq_false_iff]
  intro h
  rw [goEndsWith, List.isSuffixOf_iff_suffix] at h
  obtain ⟨w, hw⟩ := h
  rw [String.data_append] at hw
  have h1 := congrArg List.getLast? hw
  rw [List.getLast?_append, List.getLast?_append] at h1
  have e1 : ("model.moc".data).getLast? = some (Char.ofNat 99) := by decide
  have e2 : ("/physics.json".data).getLast? = some (Char.ofNat 110) := by decide
  rw [e1, e2] at h1
  simp [Option.or] at h1

theorem getFileType_physics_path (s : String) :
    getFileType (s ++ "/physics.json") = "physics" := by
  have h2 : goEndsWith (s ++ "/physics.json") "physics.json" = true := by
    have h := goEndsWith_append (s ++ "/") "physics.json"
    rw [String.append_assoc] at h
    have e : ("/" : String) ++ "physics.json" = "/physics.json" := rfl
    rwa [e] at h
  simp only [getFileType, phys_not_model, h2]
  simp

theorem prepare_all_missing (b : Live2dBuilder) (f : String → Bool)
    (hf : ∀ p, f p = true) : prepareDownloadTasks b f = (requiredFiles b, []) := by
  rw [prepareDownloadTasks_eq]
  simp only [Prod.mk.injEq]
  constructor
  · rw [List.filter_eq_self]
    intro t _
    exact hf t.filePath
  · have h : (requiredFiles b).filter (fun t => !f t.filePath) = [] := by
      rw [List.filter_eq_nil_iff]
      intro t _
      simp [hf t.filePath]
    rw [h]
    rfl

theorem requiredFiles_path_form (b : Live2dBuilder) :
    ∀ t ∈ requiredFiles b, ∃ rest, t.filePath = b.path ++ "/" ++ rest := by
  intro t ht
  unfold requiredFiles at ht
  simp only [List.mem_cons, List.mem_append, List.mem_map, or_assoc] at ht
  rcases ht with rfl | rfl | ⟨x, _, rfl⟩ | ⟨x, _, rfl⟩ | ⟨x, _, rfl⟩
  · exact ⟨"data" ++ "/" ++ "model.moc", by
      unfold Live2dBuilder.dataPath
      rw [filepathJoin_form]⟩
  · exact ⟨"data" ++ "/" ++ "physics.json", by
      unfold Live2dBuilder.dataPath
      rw [filepathJoin_form]⟩
  · refine ⟨"data" ++ ("/" ++ ("textures" ++ ("/" ++ x.fileName))), ?_⟩
    unfold Live2dBuilder.dataPath filepathJoin
    repeat rw [String.append_assoc]
  · refine ⟨"data" ++ ("/" ++ ("motions" ++ ("/" ++ x.fileName))), ?_⟩
    unfold Live2dBuilder.dataPath filepathJoin
    repeat rw [String.append_assoc]
  · refine ⟨"data" ++ ("/" ++ ("expressions" ++ ("/" ++ x.fileName))), ?_⟩
    unfold Live2dBuilder.dataPath filepathJoin
    repeat rw [String.append_assoc]

theorem requiredFiles_allow_shape (b : Live2dBuilder) :
    ∀ t ∈ requiredFiles b, t.allowNotFound = true →
      t = ⟨b.data.physics, filepathJoin b.dataPath "physics.json", true⟩ := by
  intro t ht ha
  unfold requiredFiles at ht
  simp only [List.mem_cons, List.mem_append, List.mem_map, or_assoc] at ht
  rcases ht with rfl | rfl | ⟨x, _, rfl⟩ | ⟨x, _, rfl⟩ | ⟨x, _, rfl⟩ <;>
    first
      | rfl
      | simp_all

theorem workerRun_ok (bp : String) (e : DlEnv) (t : DownloadTask)
    (hdl : (DownloadBundleFile e t.allowNotFound).1 = none)
    (hrel : ∃ r, filepathRel bp t.filePath = some r) :
    (workerRun bp e t).err = none := by
  obtain ⟨r, hr⟩ := hrel
  rcases hdb : DownloadBundleFile e t.allowNotFound with ⟨oe, cr⟩
  rw [hdb] at hdl
  simp only at hdl
  subst hdl
  simp [workerRun, hdb, hr]

theorem foldl_update_keeps_physics (f : DownloadTask → String) :
    ∀ (l : List DownloadTask) (acc : Live2dModel),
      (∀ t ∈ l, getFileType t.filePath ≠ "physics") →
      (l.foldl (fun acc t => updateModelData acc t.filePath (f t)) acc).physics
        = acc.physics := by
  intro l
  induction l with
  | nil => intro acc _; rfl
  | cons t ts ih =>
    intro acc h
    simp only [List.foldl_cons]
    rw [ih _ (fun y hy => h y (by simp [hy]))]
    exact updateModelData_keeps_physics acc t.filePath (f t) (h t (by simp))

theorem ConstructRun_success_fields (b : Live2dBuilder) (env : ConstructEnv)
    (m1 : Live2dModel)
    (hc : env.ctxDoneAtAcquire = false) (hm : env.mkdirDataOk = true)
    (hex : processExistingFiles b.path {}
        (prepareDownloadTasks b env.statNotExist).2 = (none, m1))
    (hl : (processDownloadResults m1
        (((prepareDownloadTasks b env.statNotExist).1.map (fun t => t.filePath)).zip
          ((prepareDownloadTasks b env.statNotExist).1.map
            (fun t => workerRun b.path (env.dlEnv t.filePath) t)))).1 = none)
    (hms : env.marshalOk = true) (hws : env.writeManifestOk = true) :
    (ConstructRun b env).err = none
    ∧ (ConstructRun b env).manifestWritten = true
    ∧ (ConstructRun b env).finalModel
        = (processDownloadResults m1
            (((prepareDownloadTasks b env.statNotExist).1.map (fun t => t.filePath)).zip
              ((prepareDownloadTasks b env.statNotExist).1.map
                (fun t => workerRun b.path (env.dlEnv t.filePath) t)))).2.1
    ∧ (ConstructRun b env).createdFiles
        = ((prepareDownloadTasks b env.statNotExist).1.filter
            (fun t => (DownloadBundleFile (env.dlEnv t.filePath) t.allowNotFound).2)).map
            (fun t => t.filePath) ++ [manifestPath b] := by
  simp only [ConstructRun, hc, hm, hex, hl, hms, hws]
  simp

theorem ConstructRun_err_of_loop (b : Live2dBuilder) (env : ConstructEnv)
    (m1 : Live2dModel) (e : Err)
    (hc : env.ctxDoneAtAcquire = false) (hm : env.mkdirDataOk = true)
    (hex : processExistingFiles b.path {}
        (prepareDownloadTasks b env.statNotExist).2 = (none, m1))
    (hl : (processDownloadResults m1
        (((prepareDownloadTasks b env.statNotExist).1.map (fun t => t.filePath)).zip
          ((prepareDownloadTasks b env.statNotExist).1.map
            (fun t => workerRun b.path (env.dlEnv t.filePath) t)))).1 = some e) :
    (ConstructRun b env).err = some e := by
  simp only [ConstructRun, hc, hm, hex, hl]
  simp

/-- C6 (amended): in a build where the physics task — the only task created
with allowNotFound — receives HTTP 404 and every other task succeeds,
Construct succeeds without error and no physics file is created on disk, but
the accumulator's physics path does not remain empty: it is set to the
relative path data/physics.json of the file that was never written, and that
value becomes the physics field of the written manifest.  A 404 on a texture
task (allowNotFound false) instead fails the build with the HTTP status
error. -/
theorem c6_physics_404_build (b : Live2dBuilder) (env : ConstructEnv) (ct : String)
    (mo co : Bool) (cp : CopyOutcome)
    (hctx : env.ctxDoneAtAcquire = false) (hmk : env.mkdirDataOk = true)
    (hstat : ∀ p, env.statNotExist p = true)
    (hpe : env.dlEnv (filepathJoin b.dataPath "physics.json")
        = ⟨false, true, some ⟨404, ct⟩, mo, co, cp⟩)
    (hok : ∀ t ∈ requiredFiles b, t.allowNotFound = false →
        DownloadBundleFile (env.dlEnv t.filePath) false = (none, true))
    (hcls : ∀ t ∈ requiredFiles b, t.allowNotFound = false →
        getFileType t.filePath ≠ "physics")
    (hms : env.marshalOk = true) (hws : env.writeManifestOk = true) :
    (ConstructRun b env).err = none
    ∧ (ConstructRun b env).manifestWritten = true
    ∧ filepathJoin b.dataPath "physics.json" ∉ (ConstructRun b env).createdFiles
    ∧ (ConstructRun b env).finalModel.physics = "data/physics.json"
    ∧ (∀ env₂ : ConstructEnv, ∀ pre post : List DownloadTask, ∀ tx : DownloadTask,
        env₂.ctxDoneAtAcquire = false → env₂.mkdirDataOk = true →
        (∀ p, env₂.statNotExist p = true) →
        requiredFiles b = pre ++ tx :: post →
        (∀ t ∈ pre, DownloadBundleFile (env₂.dlEnv t.filePath) t.allowNotFound
            = (none, true)) →
        tx.allowNotFound = false →
        env₂.dlEnv tx.filePath = ⟨false, true, some ⟨404, ct⟩, mo, co, cp⟩ →
        (ConstructRun b env₂).err = some (Err.httpStatus 404)) := by
  have hdb404T : DownloadBundleFile ⟨false, true, some ⟨404, ct⟩, mo, co, cp⟩ true
      = (none, false) := by
    simp [DownloadBundleFile, validateResponse]
  have hdb404F : DownloadBundleFile ⟨false, true, some ⟨404, ct⟩, mo, co, cp⟩ false
      = (some (Err.httpStatus 404), false) := by
    simp [DownloadBundleFile, validateResponse]
  have hprep : prepareDownloadTasks b env.statNotExist = (requiredFiles b, []) :=
    prepare_all_missing b env.statNotExist hstat
  have hex : processExistingFiles b.path {}
      (prepareDownloadTasks b env.statNotExist).2 = (none, ({} : Live2dModel)) := by
    rw [hprep]
    rfl
  have hphyspath : filepathJoin b.dataPath "physics.json"
      = b.path ++ "/" ++ ("data" ++ "/" ++ "physics.json") := by
    unfold Live2dBuilder.dataPath
    rw [filepathJoin_form]
  have hrelphys : filepathRel b.path (filepathJoin b.dataPath "physics.json")
      = some "data/physics.json" := by
    rw [hphyspath]
    have e : ("data" : String) ++ "/" ++ "physics.json" = "data/physics.json" := rfl
    rw [e, filepathRel_join]
  have htypephys : getFileType (filepathJoin b.dataPath "physics.json") = "physics" := by
    have e : filepathJoin b.dataPath "physics.json" = b.dataPath ++ "/physics.json" := by
      unfold filepathJoin
      rw [String.append_assoc]
      rfl
    rw [e]
    exact getFileType_physics_path b.dataPath
  have hworkphys : workerRun b.path (env.dlEnv (filepathJoin b.dataPath "physics.json"))
      ⟨b.data.physics, filepathJoin b.dataPath "physics.json", true⟩
      = { relPath := "data/physics.json", err := none } := by
    rw [hpe]
    simp [workerRun, hdb404T, hrelphys]
  have hresults : ∀ t ∈ requiredFiles b,
      (workerRun b.path (env.dlEnv t.filePath) t).err = none := by
    intro t ht
    have hrel : ∃ r, filepathRel b.path t.filePath = some r := by
      obtain ⟨rest, hform⟩ := requiredFiles_path_form b t ht
      exact ⟨rest, by rw [hform]
                      exact filepathRel_join _ _⟩
    cases hA : t.allowNotFound with
    | false =>
      apply workerRun_ok
      · rw [hA]
        simp [hok t ht hA]
      · exact hrel
    | true =>
      have hshape := requiredFiles_allow_shape b t ht hA
      subst hshape
      rw [hworkphys]
  have hZmap : ((prepareDownloadTasks b env.statNotExist).1.map (fun t => t.filePath)).zip
      ((prepareDownloadTasks b env.statNotExist).1.map
        (fun t => workerRun b.path (env.dlEnv t.filePath) t))
      = (requiredFiles b).map
          (fun t => (t.filePath, workerRun b.path (env.dlEnv t.filePath) t)) := by
    rw [hprep]
    exact List.zip_map' _ _ _
  have hallok : ∀ x ∈ (requiredFiles b).map
      (fun t => (t.filePath, workerRun b.path (env.dlEnv t.filePath) t)), x.2.err = none := by
    intro x hx
    obtain ⟨t, ht, rfl⟩ := List.mem_map.mp hx
    exact hresults t ht
  have hloop := pdr_all_ok ((requiredFiles b).map
      (fun t => (t.filePath, workerRun b.path (env.dlEnv t.filePath) t))) {} hallok
  have hl : (processDownloadResults ({} : Live2dModel)
      (((prepareDownloadTasks b env.statNotExist).1.map (fun t => t.filePath)).zip
        ((prepareDownloadTasks b env.statNotExist).1.map
          (fun t => workerRun b.path (env.dlEnv t.filePath) t)))).1 = none := by
    rw [hZmap, hloop]
  obtain ⟨herr, hwritten, hfinal, hcreated⟩ :=
    ConstructRun_success_fields b env {} hctx hmk hex hl hms hws
  refine ⟨herr, hwritten, ?_, ?_, ?_⟩
  · rw [hcreated]
    intro hmem
    rcases List.mem_append.mp hmem with hmem1 | hmem1
    · obtain ⟨t, htf, hpath⟩ := List.mem_map.mp hmem1
      have htf2 := List.mem_filter.mp htf
      have htreq : t ∈ requiredFiles b := by
        have := htf2.1
        rwa [hprep] at this
      have hpred := htf2.2
      rw [hpath] at hpred
      cases hA : t.allowNotFound with
      | true =>
        rw [hA, hpe, hdb404T] at hpred
        simp at hpred
      | false =>
        have hcontr := hok t htreq hA
        rw [hpath, hpe, hdb404F] at hcontr
        simp at hcontr
    · simp only [List.mem_singleton] at hmem1
      have hdata := congrArg String.data hmem1.symm
      rw [hphyspath] at hdata
      unfold manifestPath filepathJoin at hdata
      rw [String.data_append, String.data_append, String.data_append,
        String.data_append] at hdata
      rw [List.append_assoc, List.append_assoc] at hdata
      have := List.append_cancel_left hdata
      have h2 := List.append_cancel_left this
      revert h2
      decide
  · rw [hfinal, hZmap, hloop]
    simp only [List.foldl_map]
    unfold requiredFiles
    simp only [List.foldl_cons]
    rw [foldl_update_keeps_physics]
    · rw [hworkphys]
      rw [updateModelData_physics _ _ _ htypephys]
    · intro t ht
      have hmem : t ∈ requiredFiles b := by
        unfold requiredFiles
        exact List.mem_cons_of_mem _ (List.mem_cons_of_mem _ ht)
      have hfalse : t.allowNotFound = false := by
        simp only [List.mem_append, List.mem_map, or_assoc] at ht
        rcases ht with ⟨x, _, rfl⟩ | ⟨x, _, rfl⟩ | ⟨x, _, rfl⟩ <;> rfl
      exact hcls t hmem hfalse
  · intro env₂ pre post tx h2c h2m h2s hsplit hpreok htxallow htxenv
    have hprep₂ : prepareDownloadTasks b env₂.statNotExist = (requiredFiles b, []) :=
      prepare_all_missing b env₂.statNotExist h2s
    have hex₂ : processExistingFiles b.path {}
        (prepareDownloadTasks b env₂.statNotExist).2 = (none, ({} : Live2dModel)) := by
      rw [hprep₂]
      rfl
    have htxw : (workerRun b.path (env₂.dlEnv tx.filePath) tx).err
        = some (Err.httpStatus 404) := by
      rw [workerRun, htxallow, htxenv, hdb404F]
    have hpreok2 : ∀ y ∈ pre.map
        (fun t => (t.filePath, workerRun b.path (env₂.dlEnv t.filePath) t)),
        y.2.err = none := by
      intro y hy
      obtain ⟨t, ht, rfl⟩ := List.mem_map.mp hy
      have htreq : t ∈ requiredFiles b := by
        rw [hsplit]
        exact List.mem_append_left _ ht
      apply workerRun_ok
      · simp [hpreok t ht]
      · obtain ⟨rest, hform⟩ := requiredFiles_path_form b t htreq
        exact ⟨rest, by rw [hform]
                        exact filepathRel_join _ _⟩
    have hZ₂ : ((prepareDownloadTasks b env₂.statNotExist).1.map (fun t => t.filePath)).zip
        ((prepareDownloadTasks b env₂.statNotExist).1.map
          (fun t => workerRun b.path (env₂.dlEnv t.filePath) t))
        = (pre.map (fun t => (t.filePath, workerRun b.path (env₂.dlEnv t.filePath) t)))
          ++ (tx.filePath, workerRun b.path (env₂.dlEnv tx.filePath) tx)
            :: (post.map (fun t => (t.filePath, workerRun b.path (env₂.dlEnv t.filePath) t))) := by
      rw [hprep₂]
      rw [List.zip_map' _ _ _]
      rw [hsplit]
      simp
    have hl₂ := pdr_first_err
      (tx.filePath, workerRun b.path (env₂.dlEnv tx.filePath) tx) (Err.httpStatus 404)
      (post.map (fun t => (t.filePath, workerRun b.path (env₂.dlEnv t.filePath) t)))
      (pre.map (fun t => (t.filePath, workerRun b.path (env₂.dlEnv t.filePath) t)))
      {} hpreok2 htxw
    exact ConstructRun_err_of_loop b env₂ {} (Err.httpStatus 404) h2c h2m hex₂
      (by rw [hZ₂, hl₂])

/-- C6 counterexample: in the concrete fresh build where only the physics
request returns 404 and everything else succeeds, Construct succeeds and no
physics file is created, yet the accumulator's physics path is
"data/physics.json" — it does not remain empty as the claim states. -/
theorem c6_counterexample :
    (ConstructRun builderM cenvPhysics404).err = none
    ∧ "m/data/physics.json" ∉ (ConstructRun builderM cenvPhysics404).createdFiles
    ∧ (ConstructRun builderM cenvPhysics404).finalModel.physics = "data/physics.json"
    ∧ (ConstructRun builderM cenvPhysics404).finalModel.physics ≠ "" := by
  refine ⟨by decide, by decide, by decide, by decide⟩

/-- Witness for C6's amended statement: its hypotheses hold at the concrete
physics-404 build, and the texture-404 clause applies to the concrete
texture-404 build. -/
theorem c6_physics_404_build_witness :
    (∀ t ∈ requiredFiles builderM, t.allowNotFound = false →
        DownloadBundleFile (cenvPhysics404.dlEnv t.filePath) false = (none, true))
    ∧ (ConstructRun builderM cenvPhysics404).err = none
    ∧ (ConstructRun builderM cenvPhysics404).finalModel.physics = "data/physics.json"
    ∧ (ConstructRun builderM cenvTexture404).err = some (Err.httpStatus 404) := by
  have h := c6_physics_404_build builderM cenvPhysics404 "text/html" true true .ok
    rfl rfl (fun p => rfl) (by decide) (by decide) (by decide) rfl rfl
  refine ⟨by decide, h.1, h.2.2.2.1, ?_⟩
  exact h.2.2.2.2 cenvTexture404
    [⟨⟨"bdl", "model.moc"⟩, "m/data/model.moc", false⟩,
     ⟨⟨"bdl", "physics.json"⟩, "m/data/physics.json", true⟩]
    [⟨⟨"bdl", "idle01.mtn"⟩, "m/data/motions/idle01.mtn", false⟩]
    ⟨⟨"bdl", "texture_00.png"⟩, "m/data/textures/texture_00.png", false⟩
    rfl rfl (fun p => rfl) (by decide) (by decide) rfl (by decide)

end BestdoriDL
